import Mathlib

/-!
Verification of the ordered-list persistence and reordering subsystem of the
todo-app repository.  The database layer (`server/src/db/todoDb.js`, provided
as an unnamed source part) is embedded as pure functions over an explicit
store state (`List Todo` in insertion order), and the HTTP controllers
(`server/src/controllers/todoController.js`) as functions from a request to a
response together with the resulting store state.

Modelling conventions:
* A MongoDB collection is a `List Todo` in insertion order.
* An ObjectId is kept as its 24-character hexadecimal string; the conversion
  `ObjectId.createFromHexString` becomes `createFromHexString`, failing with
  `DbErr.bsonError` exactly on malformed strings (the thrown `BSONError`).
* `Date` timestamps are natural numbers supplied by the caller (`now`).
* An absent or `null` `order` field is `Option.none`; `$inc` on a document
  missing the field creates it holding the increment, as MongoDB does for a
  missing field.
* The `find().sort({ order: 1, createdAt: -1 })` query is a stable insertion
  sort by the BSON key order (missing/null sorts before numbers, then
  `createdAt` descending as tie-break).
* `updateOne`/`findOneAndUpdate`/`deleteOne` act on the first document
  matching the filter, as they do on a collection scan.
-/

structure Todo where
  _id : String
  title : String
  completed : Bool
  order : Option Nat
  createdAt : Nat
  updatedAt : Nat
deriving DecidableEq

/-- Error raised by `ObjectId.createFromHexString` on a malformed hex id. -/
inductive DbErr where
  | bsonError
deriving DecidableEq

def isHexDigit (c : Char) : Bool :=
  c.isDigit || (('a' ≤ c && c ≤ 'f') || ('A' ≤ c && c ≤ 'F'))

/-- A well-formed ObjectId string: exactly 24 hexadecimal characters. -/
def isValidHexId (s : String) : Bool :=
  s.length == 24 && s.toList.all isHexDigit

/-- `ObjectId.createFromHexString(id)`: succeeds on a well-formed 24-char hex
string, otherwise throws `BSONError`. -/
def createFromHexString (s : String) : Except DbErr String :=
  if isValidHexId s then .ok s else .error .bsonError

/-- JavaScript `String.prototype.trim()`: strip whitespace from both ends. -/
def jsTrim (s : String) : String :=
  String.mk (((s.toList.dropWhile Char.isWhitespace).reverse.dropWhile
    Char.isWhitespace).reverse)

/-- The sort key order of `.sort({ order: 1, createdAt: -1 })`: ascending by
`order` with a missing/null `order` before any number (BSON type order), ties
broken by `createdAt` descending. -/
def keyLeB (a b : Todo) : Bool :=
  match a.order, b.order with
  | none, none => b.createdAt ≤ a.createdAt
  | none, some _ => true
  | some _, none => false
  | some x, some y => x < y || (x == y && b.createdAt ≤ a.createdAt)

def keyLe (a b : Todo) : Prop := keyLeB a b = true

instance : DecidableRel keyLe := fun a b =>
  inferInstanceAs (Decidable (keyLeB a b = true))

instance : IsTotal Todo keyLe := by
  constructor
  intro a b
  unfold keyLe keyLeB
  rcases a.order with _ | x <;> rcases b.order with _ | y <;> simp <;> omega

instance : IsTrans Todo keyLe := by
  constructor
  intro a b c
  unfold keyLe keyLeB
  rcases a.order with _ | x <;> rcases b.order with _ | y <;>
    rcases c.order with _ | z <;> simp <;> omega

/-- The find-all read of `getAllTodos`, sorted the way the source sorts it. -/
def sortTodos (l : List Todo) : List Todo := l.insertionSort keyLe

/-- `$inc: { order: 1 }` on one document: a missing field is created holding
the increment, a present field is incremented. -/
def incOrder : Option Nat → Option Nat
  | none => some 1
  | some k => some (k + 1)

/-- `updateOne`: rewrite the first document matching the predicate. -/
def updateFirst (p : Todo → Bool) (f : Todo → Todo) : List Todo → List Todo
  | [] => []
  | t :: ts => if p t then f t :: ts else t :: updateFirst p f ts

/-- `deleteOne`: remove the first document matching the predicate. -/
def deleteFirst (p : Todo → Bool) : List Todo → List Todo
  | [] => []
  | t :: ts => if p t then ts else t :: deleteFirst p ts

namespace todoDb

/-- `createTodo(todoData)`: `updateMany({}, { $inc: { order: 1 } })`, then
`insertOne` of the new document with `order: 0` and fresh timestamps.
Returns the new store and the inserted record. -/
def createTodo (st : List Todo) (newId : String) (now : Nat)
    (title : String) (completed : Bool) : List Todo × Todo :=
  let shifted := st.map fun t => { t with order := incOrder t.order }
  let todo : Todo :=
    { _id := newId, title := title, completed := completed,
      order := some 0, createdAt := now, updatedAt := now }
  (shifted ++ [todo], todo)

/-- The in-place repair scan of `getAllTodos`: walking the sorted array with
its index, any record whose `order` is undefined or null is assigned its
positional index. -/
def repairPass (i : Nat) : List Todo → List Todo
  | [] => []
  | t :: ts =>
    (if t.order = none then { t with order := some i } else t) :: repairPass (i + 1) ts

/-- Apply the `bulkWrite` of `getAllTodos`: each op is
`updateOne { filter: { _id }, update: { $set: { order } } }`. -/
def applyOrderWrites (st : List Todo) (ops : List (String × Option Nat)) : List Todo :=
  ops.foldl (fun s op => updateFirst (fun t => t._id == op.1)
    (fun t => { t with order := op.2 }) s) st

/-- Result of `getAllTodos`: the returned (repaired) array, the store after
the bulk write, and the list of issued write ops. -/
structure ListResult where
  todos : List Todo
  store : List Todo
  writes : List (String × Option Nat)
deriving DecidableEq

/-- `getAllTodos()`: read all sorted by `(order asc, createdAt desc)`, assign
each undefined/null `order` its index in the scan, and if any record needed
repair, bulk-write `{ $set: { order } }` for every record of the scanned
array whose (post-repair) `order` is defined. -/
def getAllTodos (st : List Todo) : ListResult :=
  let sorted := sortTodos st
  let todos := repairPass 0 sorted
  let needsUpdate := sorted.any fun t => t.order = none
  if needsUpdate then
    let bulkOps := (todos.filter fun t => t.order ≠ none).map fun t => (t._id, t.order)
    { todos := todos, store := applyOrderWrites st bulkOps, writes := bulkOps }
  else
    { todos := todos, store := st, writes := [] }

/-- `getTodoById(id)`: convert the id (may throw `BSONError`), then
`findOne({ _id })`. -/
def getTodoById (st : List Todo) (id : String) : Except DbErr (Option Todo) := do
  let oid ← createFromHexString id
  return st.find? fun t => t._id == oid

/-- The partial-update payload of `updateTodo`: only the provided fields. -/
structure UpdateFields where
  title : Option String
  completed : Option Bool
deriving DecidableEq

/-- `$set` of the provided fields plus a refreshed `updatedAt`. -/
def applyUpdates (u : UpdateFields) (now : Nat) (t : Todo) : Todo :=
  let t1 := match u.title with
    | some s => { t with title := s }
    | none => t
  let t2 := match u.completed with
    | some b => { t1 with completed := b }
    | none => t1
  { t2 with updatedAt := now }

/-- `updateTodo(id, updates)`: convert the id, then
`findOneAndUpdate({ _id }, { $set: { ...updates, updatedAt } },
{ returnDocument: 'after' })`. -/
def updateTodo (st : List Todo) (now : Nat) (id : String) (u : UpdateFields) :
    Except DbErr (Option Todo × List Todo) := do
  let oid ← createFromHexString id
  match st.find? (fun t => t._id == oid) with
  | none => return (none, st)
  | some t =>
    return (some (applyUpdates u now t),
      updateFirst (fun x => x._id == oid) (applyUpdates u now) st)

/-- `deleteTodo(id)`: convert the id, `deleteOne({ _id })`, and report
`deletedCount > 0`. -/
def deleteTodo (st : List Todo) (id : String) : Except DbErr (Bool × List Todo) := do
  let oid ← createFromHexString id
  return (st.any (fun t => t._id == oid), deleteFirst (fun t => t._id == oid) st)

/-- `toggleTodoComplete(id)`: read the record, return `null` when absent,
otherwise update with the negated `completed`. -/
def toggleTodoComplete (st : List Todo) (now : Nat) (id : String) :
    Except DbErr (Option Todo × List Todo) := do
  let t? ← getTodoById st id
  match t? with
  | none => return (none, st)
  | some t => updateTodo st now id { title := none, completed := some (!t.completed) }

/-- The `todoIds.map((id, index) => ...)` of `reorderTodos`: every id is
converted (left to right) while building the bulk ops, before any write is
issued; a malformed id makes the whole construction throw. -/
def buildOps (i : Nat) : List String → Except DbErr (List (String × Nat))
  | [] => .ok []
  | id :: rest => do
    let oid ← createFromHexString id
    let ops ← buildOps (i + 1) rest
    return (oid, i) :: ops

/-- `reorderTodos(todoIds)`: build one `updateOne` op per id setting
`{ order: index, updatedAt }`, then `bulkWrite` them; returns `true`. -/
def reorderTodos (st : List Todo) (now : Nat) (ids : List String) :
    Except DbErr (List Todo × Bool) := do
  let ops ← buildOps 0 ids
  let st' := ops.foldl (fun s op => updateFirst (fun t => t._id == op.1)
    (fun t => { t with order := some op.2, updatedAt := now }) s) st
  return (st', true)

end todoDb

namespace ctrl

/-- The observable part of an HTTP response: status code, `success` flag and
`message` (empty when the source sends only data). -/
structure Response where
  status : Nat
  success : Bool
  message : String
deriving DecidableEq

/-- `GET /api/todos/:id`. -/
def getTodoById (st : List Todo) (id : String) : Response :=
  match todoDb.getTodoById st id with
  | .error .bsonError => ⟨400, false, "Invalid todo ID format"⟩
  | .ok none => ⟨404, false, "Todo not found"⟩
  | .ok (some _) => ⟨200, true, ""⟩

/-- `POST /api/todos`: rejects a missing or whitespace-only title
(`!title || title.trim() === ''`), otherwise creates with the trimmed title
and `completed || false`. -/
def createTodo (st : List Todo) (newId : String) (now : Nat)
    (title : Option String) (completed : Option Bool) : Response × List Todo :=
  match title with
  | none => (⟨400, false, "Title is required"⟩, st)
  | some s =>
    if jsTrim s = "" then (⟨400, false, "Title is required"⟩, st)
    else
      let r := todoDb.createTodo st newId now (jsTrim s) (completed.getD false)
      (⟨201, true, "Todo created successfully"⟩, r.1)

/-- `PATCH /api/todos/:id`: builds the update object from the provided fields
(`title` trimmed, no further validation), rejects an empty update, then calls
the db layer; `BSONError` maps to 400, a missing record to 404. -/
def updateTodo (st : List Todo) (now : Nat) (id : String)
    (title : Option String) (completed : Option Bool) : Response × List Todo :=
  if title = none ∧ completed = none then
    (⟨400, false, "No valid fields to update"⟩, st)
  else
    match todoDb.updateTodo st now id
        { title := title.map jsTrim, completed := completed } with
    | .error .bsonError => (⟨400, false, "Invalid todo ID format"⟩, st)
    | .ok (none, st') => (⟨404, false, "Todo not found"⟩, st')
    | .ok (some _, st') => (⟨200, true, "Todo updated successfully"⟩, st')

/-- `DELETE /api/todos/:id`. -/
def deleteTodo (st : List Todo) (id : String) : Response × List Todo :=
  match todoDb.deleteTodo st id with
  | .error .bsonError => (⟨400, false, "Invalid todo ID format"⟩, st)
  | .ok (false, st') => (⟨404, false, "Todo not found"⟩, st')
  | .ok (true, st') => (⟨200, true, "Todo deleted successfully"⟩, st')

/-- `PATCH /api/todos/:id/toggle`. -/
def toggleTodoComplete (st : List Todo) (now : Nat) (id : String) :
    Response × List Todo :=
  match todoDb.toggleTodoComplete st now id with
  | .error .bsonError => (⟨400, false, "Invalid todo ID format"⟩, st)
  | .ok (none, st') => (⟨404, false, "Todo not found"⟩, st')
  | .ok (some _, st') => (⟨200, true, "Todo toggled successfully"⟩, st')

/-- `PUT /api/todos/reorder`: rejects a missing or empty `todoIds` array;
any error thrown by the db layer — including the `BSONError` of a malformed
id, for which this controller has no dedicated branch — falls to the generic
500 handler. -/
def reorderTodos (st : List Todo) (now : Nat) (todoIds : Option (List String)) :
    Response × List Todo :=
  match todoIds with
  | none => (⟨400, false, "todoIds must be a non-empty array"⟩, st)
  | some ids =>
    if ids.isEmpty then (⟨400, false, "todoIds must be a non-empty array"⟩, st)
    else
      match todoDb.reorderTodos st now ids with
      | .error _ => (⟨500, false, "Failed to reorder todos"⟩, st)
      | .ok (st', _) => (⟨200, true, "Todos reordered successfully"⟩, st')

end ctrl

/-! ### Derived forms used to state the claims -/

/-- One `create` request: the id the store will generate, the clock value,
and the caller-supplied fields. -/
structure CreateIn where
  newId : String
  now : Nat
  title : String
  completed : Bool
deriving DecidableEq

/-- A sequence of `create` calls run back to back (no interleaving). -/
def createAll (st : List Todo) (l : List CreateIn) : List Todo :=
  l.foldl (fun s c => (todoDb.createTodo s c.newId c.now c.title c.completed).1) st

/-- `incOrder` iterated `n` times. -/
def addOrder (n : Nat) (o : Option Nat) : Option Nat :=
  match o with
  | none => if n = 0 then none else some n
  | some k => some (k + n)

def shiftN (n : Nat) (t : Todo) : Todo := { t with order := addOrder n t.order }

/-- The record a `create` call inserts, at a given order value. -/
def mkTodo (c : CreateIn) (ord : Nat) : Todo :=
  { _id := c.newId, title := c.title, completed := c.completed,
    order := some ord, createdAt := c.now, updatedAt := c.now }

/-- The records inserted by a run of `create` calls, in insertion order:
the record created `k`-th from the end carries order `k`. -/
def newRecs : List CreateIn → List Todo
  | [] => []
  | c :: rest => mkTodo c rest.length :: newRecs rest

/-- The four atomic store writes performed by two concurrent `create` calls
A and B: each call is the two-step sequence `updateMany($inc order)` then
`insertOne(order = 0)`, with no lock serializing the two calls. -/
inductive CStep where
  | incA
  | insA
  | incB
  | insB
deriving DecidableEq, BEq

/-- Execute one atomic step of the two racing `create` calls. -/
def stepCreate (ca cb : CreateIn) (st : List Todo) : CStep → List Todo
  | .incA => st.map fun t => { t with order := incOrder t.order }
  | .insA => st ++ [mkTodo ca 0]
  | .incB => st.map fun t => { t with order := incOrder t.order }
  | .insB => st ++ [mkTodo cb 0]

/-- Run a schedule (an interleaving of the four steps) against a store. -/
def runSched (ca cb : CreateIn) (sched : List CStep) (st : List Todo) : List Todo :=
  sched.foldl (stepCreate ca cb) st

/-- A schedule is a legal interleaving of the two creates when it performs
each step exactly once and each call's increment precedes its insert. -/
def isInterleaving (sched : List CStep) : Bool :=
  sched.count .incA == 1 && sched.count .insA == 1 &&
  sched.count .incB == 1 && sched.count .insB == 1 &&
  sched.length == 4 &&
  decide (sched.indexOf CStep.incA < sched.indexOf CStep.insA) &&
  decide (sched.indexOf CStep.incB < sched.indexOf CStep.insB)

/-- The effect of the repair bulk write on one record: set its `order` to
the value the write table holds for its id, if any. -/
def setOrderFrom (ops : List (String × Option Nat)) (t : Todo) : Todo :=
  { t with order := (List.lookup t._id ops).getD t.order }

/-! ### General lemmas about the embedded operations -/

lemma updateFirst_id_map (p : Todo → Bool) (f : Todo → Todo)
    (hf : ∀ t, (f t)._id = t._id) :
    ∀ st : List Todo, (updateFirst p f st).map (fun t => t._id) = st.map (fun t => t._id)
  | [] => rfl
  | t :: ts => by
    unfold updateFirst
    by_cases h : p t = true
    · simp [h, hf]
    · simp only [Bool.not_eq_true] at h
      simp [h, updateFirst_id_map p f hf ts]

lemma updateFirst_of_no_match (p : Todo → Bool) (f : Todo → Todo) :
    ∀ st : List Todo, (∀ t ∈ st, p t = false) → updateFirst p f st = st
  | [], _ => rfl
  | t :: ts, h => by
    unfold updateFirst
    simp [h t (by simp), updateFirst_of_no_match p f ts (fun x hx => h x (by simp [hx]))]

namespace todoDb

lemma repairPass_length : ∀ (n : Nat) (s : List Todo), (repairPass n s).length = s.length
  | _, [] => rfl
  | n, _ :: ts => by unfold repairPass; simp [repairPass_length (n + 1) ts]

lemma repairPass_of_all_some : ∀ (n : Nat) (s : List Todo),
    (∀ t ∈ s, t.order ≠ none) → repairPass n s = s
  | _, [], _ => rfl
  | n, t :: ts, h => by
    unfold repairPass
    rw [if_neg (h t (by simp)), repairPass_of_all_some (n + 1) ts
      (fun x hx => h x (by simp [hx]))]

lemma mem_repairPass_order_ne_none : ∀ (n : Nat) (s : List Todo),
    ∀ t ∈ repairPass n s, t.order ≠ none
  | n, u :: us, t, ht => by
    unfold repairPass at ht
    rcases List.mem_cons.mp ht with h | h
    · subst h
      by_cases hu : u.order = none
      · simp [hu]
      · simp [hu]
    · exact mem_repairPass_order_ne_none (n + 1) us t h

lemma repairPass_all_none_bound : ∀ (n : Nat) (s : List Todo),
    (∀ t ∈ s, t.order = none) →
    ∀ t ∈ repairPass n s, ∃ k, n ≤ k ∧ t.order = some k
  | n, u :: us, h, t, ht => by
    unfold repairPass at ht
    rcases List.mem_cons.mp ht with heq | hmem
    · subst heq
      exact ⟨n, le_refl n, by simp [h u (by simp)]⟩
    · obtain ⟨k, hk, ho⟩ := repairPass_all_none_bound (n + 1) us
        (fun x hx => h x (by simp [hx])) t hmem
      exact ⟨k, by omega, ho⟩

lemma repairPass_all_none_sorted : ∀ (n : Nat) (s : List Todo),
    (∀ t ∈ s, t.order = none) →
    List.Sorted keyLe (repairPass n s) ∧
      (repairPass n s).Pairwise (fun a b => a.order ≠ b.order)
  | _, [], _ => by constructor <;> simp [repairPass]
  | n, u :: us, h => by
    have hu : u.order = none := h u (by simp)
    have ih := repairPass_all_none_sorted (n + 1) us (fun x hx => h x (by simp [hx]))
    have hbound := repairPass_all_none_bound (n + 1) us (fun x hx => h x (by simp [hx]))
    unfold repairPass
    rw [if_pos hu]
    constructor
    · refine List.sorted_cons.mpr ⟨?_, ih.1⟩
      intro b hb
      obtain ⟨k, hk, ho⟩ := hbound b hb
      unfold keyLe keyLeB
      simp only
      rw [ho]
      simp
      omega
    · refine List.pairwise_cons.mpr ⟨?_, ih.2⟩
      intro b hb
      obtain ⟨k, hk, ho⟩ := hbound b hb
      simp only [ho]
      intro hcon
      have : n = k := by simpa using hcon
      omega

lemma repairPass_id_map : ∀ (n : Nat) (s : List Todo),
    (repairPass n s).map (fun t => t._id) = s.map (fun t => t._id)
  | _, [] => rfl
  | n, u :: us => by
    unfold repairPass
    by_cases hu : u.order = none <;>
      simp [hu, repairPass_id_map (n + 1) us]

end todoDb

lemma keyLe_order_eq {a b : Todo} {x y : Nat}
    (hx : a.order = some x) (hy : b.order = some y)
    (h1 : keyLe a b) (h2 : keyLe b a) : x = y := by
  unfold keyLe keyLeB at h1 h2
  rw [hx, hy] at h1 h2
  simp at h1 h2
  omega

/-- Two sorted lists that are permutations of each other and whose `order`
values are all defined and pairwise distinct are equal: the sort key
determines the sequence. -/
lemma sorted_perm_eq : ∀ {l₁ l₂ : List Todo}, l₁.Perm l₂ →
    List.Sorted keyLe l₁ → List.Sorted keyLe l₂ →
    (∀ t ∈ l₁, t.order ≠ none) →
    l₁.Pairwise (fun a b => a.order ≠ b.order) → l₁ = l₂
  | [], l₂, hp, _, _, _, _ => (hp.symm.eq_nil).symm
  | a :: t₁, [], hp, _, _, _, _ => absurd hp.eq_nil (by simp)
  | a :: t₁, b :: t₂, hp, hs₁, hs₂, hsome, hdist => by
    have hab : a = b := by
      by_contra hne
      have hbmem : b ∈ t₁ := by
        have : b ∈ a :: t₁ := hp.mem_iff.mpr (by simp)
        rcases List.mem_cons.mp this with h | h
        · exact absurd h.symm hne
        · exact h
      have hamem : a ∈ t₂ := by
        have : a ∈ b :: t₂ := hp.mem_iff.mp (by simp)
        rcases List.mem_cons.mp this with h | h
        · exact absurd h hne
        · exact h
      have hle₁ : keyLe a b := (List.sorted_cons.mp hs₁).1 b hbmem
      have hle₂ : keyLe b a := (List.sorted_cons.mp hs₂).1 a hamem
      obtain ⟨x, hx⟩ := Option.ne_none_iff_exists'.mp (hsome a (by simp))
      obtain ⟨y, hy⟩ := Option.ne_none_iff_exists'.mp (hsome b (by simp [hbmem]))
      have hxy : x = y := keyLe_order_eq hx hy hle₁ hle₂
      have : a.order ≠ b.order := (List.pairwise_cons.mp hdist).1 b hbmem
      exact this (by rw [hx, hy, hxy])
    subst hab
    have htail := sorted_perm_eq hp.cons_inv (List.sorted_cons.mp hs₁).2
      (List.sorted_cons.mp hs₂).2
      (fun t ht => hsome t (by simp [ht]))
      (List.pairwise_cons.mp hdist).2
    rw [htail]

lemma sortTodos_perm (l : List Todo) : (sortTodos l).Perm l :=
  List.perm_insertionSort keyLe l

lemma sortTodos_sorted (l : List Todo) : List.Sorted keyLe (sortTodos l) :=
  List.sorted_insertionSort keyLe l

lemma addOrder_zero (o : Option Nat) : addOrder 0 o = o := by
  cases o <;> simp [addOrder]

lemma shiftN_zero (t : Todo) : shiftN 0 t = t := by
  simp [shiftN, addOrder_zero]

lemma addOrder_addOrder (m n : Nat) (o : Option Nat) :
    addOrder m (addOrder n o) = addOrder (n + m) o := by
  cases o with
  | none =>
    by_cases hn : n = 0
    · subst hn; simp [addOrder]
    · have hnm : n + m ≠ 0 := by omega
      simp [addOrder, hn, hnm]
  | some k => simp [addOrder, Nat.add_assoc]

lemma shiftN_shiftN (m n : Nat) (t : Todo) :
    shiftN m (shiftN n t) = shiftN (n + m) t := by
  simp [shiftN, addOrder_addOrder]

lemma incOrder_eq_addOrder_one (o : Option Nat) : incOrder o = addOrder 1 o := by
  cases o <;> simp [incOrder, addOrder]

lemma createAll_shape : ∀ (l : List CreateIn) (st : List Todo),
    createAll st l = st.map (shiftN l.length) ++ newRecs l
  | [], st => by
    have hmap : List.map (shiftN 0) st = st := by
      rw [List.map_congr_left fun t _ => shiftN_zero t]
      exact List.map_id' st
    simp [createAll, newRecs, hmap]
  | c :: rest, st => by
    have hstep : (todoDb.createTodo st c.newId c.now c.title c.completed).1
        = st.map (shiftN 1) ++ [mkTodo c 0] := by
      simp [todoDb.createTodo, mkTodo, shiftN, incOrder_eq_addOrder_one]
    have hfold : createAll st (c :: rest)
        = createAll (st.map (shiftN 1) ++ [mkTodo c 0]) rest := by
      rw [← hstep]
      rfl
    rw [hfold, createAll_shape rest]
    rw [List.map_append, List.map_map]
    have hcomp : (shiftN rest.length ∘ shiftN 1) = shiftN (c :: rest).length := by
      funext t
      simp only [Function.comp_apply, shiftN_shiftN, List.length_cons, Nat.add_comm]
    have hmk : shiftN rest.length (mkTodo c 0) = mkTodo c rest.length := by
      simp [shiftN, mkTodo, addOrder]
    rw [hcomp]
    simp [newRecs, hmk]

lemma createAll_nil_eq (l : List CreateIn) : createAll [] l = newRecs l := by
  rw [createAll_shape]; simp

lemma newRecs_orders : ∀ l : List CreateIn,
    (newRecs l).map (fun t => t.order) = ((List.range l.length).reverse).map some
  | [] => rfl
  | c :: rest => by
    simp only [newRecs, List.map_cons, newRecs_orders rest, List.length_cons,
      List.range_succ, List.reverse_append]
    simp [mkTodo]

lemma newRecs_titles : ∀ l : List CreateIn,
    (newRecs l).map (fun t => t.title) = l.map (fun c => c.title)
  | [] => rfl
  | c :: rest => by simp [newRecs, mkTodo, newRecs_titles rest]

lemma newRecs_ids : ∀ l : List CreateIn,
    (newRecs l).map (fun t => t._id) = l.map (fun c => c.newId)
  | [] => rfl
  | c :: rest => by simp [newRecs, mkTodo, newRecs_ids rest]

lemma mem_newRecs_order : ∀ (l : List CreateIn), ∀ t ∈ newRecs l,
    ∃ k, k < l.length ∧ t.order = some k
  | c :: rest, t, ht => by
    rcases List.mem_cons.mp ht with h | h
    · exact ⟨rest.length, by simp, by simp [h, mkTodo]⟩
    · obtain ⟨k, hk, ho⟩ := mem_newRecs_order rest t h
      exact ⟨k, by simp; omega, ho⟩

lemma newRecs_rev_sorted : ∀ l : List CreateIn,
    List.Sorted keyLe (newRecs l).reverse
  | [] => by simp [newRecs]
  | c :: rest => by
    unfold List.Sorted
    rw [List.pairwise_reverse]
    refine List.pairwise_cons.mpr ⟨?_, ?_⟩
    · intro b hb
      obtain ⟨k, hk, ho⟩ := mem_newRecs_order rest b hb
      unfold keyLe keyLeB
      simp only [ho, mkTodo]
      simp
      omega
    · have := newRecs_rev_sorted rest
      unfold List.Sorted at this
      rwa [List.pairwise_reverse] at this

lemma newRecs_rev_distinct : ∀ l : List CreateIn,
    ((newRecs l).reverse).Pairwise (fun a b => a.order ≠ b.order)
  | [] => by simp [newRecs]
  | c :: rest => by
    rw [List.pairwise_reverse]
    refine List.pairwise_cons.mpr ⟨?_, ?_⟩
    · intro b hb
      obtain ⟨k, hk, ho⟩ := mem_newRecs_order rest b hb
      simp only [ho, mkTodo]
      intro hcon
      have : k = rest.length := by simpa using hcon
      omega
    · have := newRecs_rev_distinct rest
      rwa [List.pairwise_reverse] at this

lemma newRecs_order_ne_none (l : List CreateIn) :
    ∀ t ∈ newRecs l, t.order ≠ none := by
  intro t ht
  obtain ⟨k, _, ho⟩ := mem_newRecs_order l t ht
  simp [ho]

lemma sortTodos_newRecs (l : List CreateIn) :
    sortTodos (newRecs l) = (newRecs l).reverse := by
  refine (sorted_perm_eq ?_ (newRecs_rev_sorted l) (sortTodos_sorted _) ?_ ?_).symm
  · exact (List.reverse_perm (newRecs l)).trans (sortTodos_perm (newRecs l)).symm
  · intro t ht
    exact newRecs_order_ne_none l t (List.mem_reverse.mp ht)
  · exact newRecs_rev_distinct l

lemma getAllTodos_of_all_some (st : List Todo)
    (h : ∀ t ∈ st, t.order ≠ none) :
    todoDb.getAllTodos st = ⟨sortTodos st, st, []⟩ := by
  have hsorted : ∀ t ∈ sortTodos st, t.order ≠ none := by
    intro t ht
    exact h t ((sortTodos_perm st).mem_iff.mp ht)
  have hany : ((sortTodos st).any fun t => t.order = none) = false := by
    rw [List.any_eq_false]
    intro t ht
    simpa using hsorted t ht
  unfold todoDb.getAllTodos
  simp only [hany]
  rw [todoDb.repairPass_of_all_some 0 (sortTodos st) hsorted]
  rfl

/-! ### The claims -/

/-- C3: after any sequence of `create` calls on an empty store with no
interleaving, `list()` returns `n` records whose `order` values are exactly
`0, ..., n-1` in sequence, with the most recently created record first (at
order 0); no repair write is issued; concretely, creating "A", then "B",
then "C" yields the title sequence `["C", "B", "A"]`. -/
theorem claim_C3_create_dense_rank (inputs : List CreateIn) :
    (todoDb.getAllTodos (createAll [] inputs)).todos.map (fun t => t.order)
        = (List.range inputs.length).map some ∧
    (todoDb.getAllTodos (createAll [] inputs)).todos.map (fun t => t.title)
        = (inputs.map (fun c => c.title)).reverse ∧
    (todoDb.getAllTodos (createAll [] inputs)).todos.map (fun t => t._id)
        = (inputs.map (fun c => c.newId)).reverse ∧
    (todoDb.getAllTodos (createAll [] inputs)).writes = [] ∧
    (todoDb.getAllTodos (createAll []
        [⟨"aaaaaaaaaaaaaaaaaaaaaaaa", 1, "A", false⟩,
         ⟨"bbbbbbbbbbbbbbbbbbbbbbbb", 2, "B", false⟩,
         ⟨"cccccccccccccccccccccccc", 3, "C", false⟩])).todos.map (fun t => t.title)
        = ["C", "B", "A"] := by
  rw [createAll_nil_eq,
    getAllTodos_of_all_some (newRecs inputs) (newRecs_order_ne_none inputs)]
  refine ⟨?_, ?_, ?_, rfl, by decide⟩
  · show (sortTodos (newRecs inputs)).map (fun t => t.order) = _
    rw [sortTodos_newRecs, List.map_reverse, newRecs_orders, ← List.map_reverse,
      List.reverse_reverse]
  · show (sortTodos (newRecs inputs)).map (fun t => t.title) = _
    rw [sortTodos_newRecs, List.map_reverse, newRecs_titles]
  · show (sortTodos (newRecs inputs)).map (fun t => t._id) = _
    rw [sortTodos_newRecs, List.map_reverse, newRecs_ids]

lemma deleteFirst_of_no_match (p : Todo → Bool) :
    ∀ st : List Todo, (∀ t ∈ st, p t = false) → deleteFirst p st = st
  | [], _ => rfl
  | t :: ts, h => by
    unfold deleteFirst
    simp [h t (by simp), deleteFirst_of_no_match p ts (fun x hx => h x (by simp [hx]))]

lemma buildOps_ok : ∀ (ids : List String) (n : Nat),
    (∀ i ∈ ids, isValidHexId i = true) →
    ∃ ops, todoDb.buildOps n ids = .ok ops ∧ ops.map (fun p => p.1) = ids
  | [], n, _ => ⟨[], rfl, rfl⟩
  | id :: rest, n, h => by
    obtain ⟨ops, hops, hkeys⟩ := buildOps_ok rest (n + 1) (fun i hi => h i (by simp [hi]))
    refine ⟨(id, n) :: ops, ?_, by simp [hkeys]⟩
    simp [todoDb.buildOps, createFromHexString, h id (by simp), hops, Except.bind]
    rfl

lemma buildOps_err : ∀ (ids : List String) (n : Nat),
    (∃ i ∈ ids, isValidHexId i = false) →
    todoDb.buildOps n ids = .error .bsonError
  | id :: rest, n, h => by
    by_cases hid : isValidHexId id = true
    · have hrest : ∃ i ∈ rest, isValidHexId i = false := by
        obtain ⟨i, hi, hbad⟩ := h
        rcases List.mem_cons.mp hi with heq | hmem
        · subst heq; rw [hid] at hbad; cases hbad
        · exact ⟨i, hmem, hbad⟩
      simp [todoDb.buildOps, createFromHexString, hid,
        buildOps_err rest (n + 1) hrest, Except.bind]
      rfl
    · simp only [Bool.not_eq_true] at hid
      simp [todoDb.buildOps, createFromHexString, hid, Except.bind]
      rfl

lemma reorder_fold_no_match (now : Nat) : ∀ (ops : List (String × Nat)) (st : List Todo),
    (∀ op ∈ ops, ∀ t ∈ st, t._id ≠ op.1) →
    ops.foldl (fun s op => updateFirst (fun t => t._id == op.1)
      (fun t => { t with order := some op.2, updatedAt := now }) s) st = st
  | [], _, _ => rfl
  | op :: rest, st, h => by
    rw [List.foldl_cons,
      updateFirst_of_no_match _ _ st
        (fun t ht => by simpa using h op (by simp) t ht),
      reorder_fold_no_match now rest st (fun o ho t ht => h o (by simp [ho]) t ht)]

/-- C6: `reorder` called with well-formed ids none of which matches a stored
record returns success and leaves the store completely unchanged — each
unmatched id is a per-id no-op inside the batch. -/
theorem claim_C6_reorder_unmatched_ids (st : List Todo) (now : Nat) (ids : List String)
    (hval : ∀ i ∈ ids, isValidHexId i = true)
    (hun : ∀ i ∈ ids, ∀ t ∈ st, t._id ≠ i) :
    todoDb.reorderTodos st now ids = .ok (st, true) := by
  obtain ⟨ops, hops, hkeys⟩ := buildOps_ok ids 0 hval
  have hfold := reorder_fold_no_match now ops st
    (fun op hop t ht => hun op.1 (hkeys ▸ List.mem_map_of_mem (fun p => p.1) hop) t ht)
  simp [todoDb.reorderTodos, hops, Except.bind, hfold]

/-- C6 witness: a concrete store and one well-formed unmatched id. -/
theorem claim_C6_reorder_unmatched_ids_witness :
    todoDb.reorderTodos [⟨"aaaaaaaaaaaaaaaaaaaaaaaa", "x", false, some 0, 1, 1⟩] 7
      ["bbbbbbbbbbbbbbbbbbbbbbbb"]
      = .ok ([⟨"aaaaaaaaaaaaaaaaaaaaaaaa", "x", false, some 0, 1, 1⟩], true) :=
  claim_C6_reorder_unmatched_ids _ 7 _ (by decide) (by decide)

/-- C9: the two-step non-atomic `create` (increment all orders, then insert
at order 0) admits an interleaving of two concurrent calls in which both new
records land at `order = 0`, and — from a store holding one record — an
interleaving whose final order values are `{2, 0, 0}`, so `order = 1` is
missing; the serial schedule instead yields the proper `{1, 0}`. -/
theorem claim_C9_concurrent_create_race :
    isInterleaving [CStep.incA, CStep.incB, CStep.insA, CStep.insB] = true ∧
    (runSched ⟨"aaaaaaaaaaaaaaaaaaaaaaaa", 10, "A", false⟩
        ⟨"bbbbbbbbbbbbbbbbbbbbbbbb", 11, "B", false⟩
        [CStep.incA, CStep.incB, CStep.insA, CStep.insB] []).map (fun t => t.order)
      = [some 0, some 0] ∧
    (runSched ⟨"aaaaaaaaaaaaaaaaaaaaaaaa", 10, "A", false⟩
        ⟨"bbbbbbbbbbbbbbbbbbbbbbbb", 11, "B", false⟩
        [CStep.incA, CStep.incB, CStep.insA, CStep.insB]
        [⟨"cccccccccccccccccccccccc", "C", false, some 0, 1, 1⟩]).map (fun t => t.order)
      = [some 2, some 0, some 0] ∧
    (∀ t ∈ runSched ⟨"aaaaaaaaaaaaaaaaaaaaaaaa", 10, "A", false⟩
        ⟨"bbbbbbbbbbbbbbbbbbbbbbbb", 11, "B", false⟩
        [CStep.incA, CStep.incB, CStep.insA, CStep.insB]
        [⟨"cccccccccccccccccccccccc", "C", false, some 0, 1, 1⟩], t.order ≠ some 1) ∧
    isInterleaving [CStep.incA, CStep.insA, CStep.incB, CStep.insB] = true ∧
    (runSched ⟨"aaaaaaaaaaaaaaaaaaaaaaaa", 10, "A", false⟩
        ⟨"bbbbbbbbbbbbbbbbbbbbbbbb", 11, "B", false⟩
        [CStep.incA, CStep.insA, CStep.incB, CStep.insB] []).map (fun t => t.order)
      = [some 1, some 0] := by
  decide

/-- C10: `reorder` with a non-empty id list containing a malformed id throws
before issuing any write (every id is converted while building the batch,
ahead of the `bulkWrite`), so the store is unchanged; the controller has no
invalid-identifier branch, so the error surfaces as a 500 internal failure,
not a 400 client-input error. -/
theorem claim_C10_reorder_malformed_id (st : List Todo) (now : Nat) (ids : List String)
    (hne : ids ≠ []) (hbad : ∃ i ∈ ids, isValidHexId i = false) :
    ctrl.reorderTodos st now (some ids)
      = (⟨500, false, "Failed to reorder todos"⟩, st) ∧
    todoDb.reorderTodos st now ids = .error .bsonError := by
  have hdb : todoDb.reorderTodos st now ids = .error .bsonError := by
    simp [todoDb.reorderTodos, buildOps_err ids 0 hbad, Except.bind]
  refine ⟨?_, hdb⟩
  have hemp : ids.isEmpty = false := by
    cases ids with
    | nil => exact absurd rfl hne
    | cons a l => rfl
  simp [ctrl.reorderTodos, hemp, hdb]

/-- C10 witness: a malformed id inside a non-empty list. -/
theorem claim_C10_reorder_malformed_id_witness :
    ctrl.reorderTodos [⟨"aaaaaaaaaaaaaaaaaaaaaaaa", "x", false, some 0, 1, 1⟩] 7
        (some ["zz"])
      = (⟨500, false, "Failed to reorder todos"⟩,
         [⟨"aaaaaaaaaaaaaaaaaaaaaaaa", "x", false, some 0, 1, 1⟩]) ∧
    todoDb.reorderTodos [⟨"aaaaaaaaaaaaaaaaaaaaaaaa", "x", false, some 0, 1, 1⟩] 7 ["zz"]
      = .error .bsonError :=
  claim_C10_reorder_malformed_id _ 7 _ (by decide) ⟨"zz", by decide, by decide⟩

lemma exceptOkBind {α β : Type} (a : α) (f : α → Except DbErr β) :
    (Except.ok a >>= f : Except DbErr β) = f a := rfl

lemma exceptErrBind {α β : Type} (e : DbErr) (f : α → Except DbErr β) :
    (Except.error e >>= f : Except DbErr β) = .error e := rfl

lemma exceptPure {α : Type} (a : α) : (pure a : Except DbErr α) = .ok a := rfl

/-- C7: with a malformed id, `get`, `update`, `delete` and `toggle` all hit
the thrown `BSONError` and answer 400 "Invalid todo ID format" (the
invalid-identifier error), leaving the store unchanged; with a well-formed id
matching no record they instead answer 404 "Todo not found" — so not-found is
signalled only for a well-formed absent id. -/
theorem claim_C7_invalid_id_handling (st : List Todo) (now : Nat) (id : String) (b : Bool) :
    (isValidHexId id = false →
      ctrl.getTodoById st id = ⟨400, false, "Invalid todo ID format"⟩ ∧
      ctrl.updateTodo st now id none (some b)
        = (⟨400, false, "Invalid todo ID format"⟩, st) ∧
      ctrl.deleteTodo st id = (⟨400, false, "Invalid todo ID format"⟩, st) ∧
      ctrl.toggleTodoComplete st now id
        = (⟨400, false, "Invalid todo ID format"⟩, st)) ∧
    (isValidHexId id = true → (∀ t ∈ st, t._id ≠ id) →
      ctrl.getTodoById st id = ⟨404, false, "Todo not found"⟩ ∧
      ctrl.updateTodo st now id none (some b) = (⟨404, false, "Todo not found"⟩, st) ∧
      ctrl.deleteTodo st id = (⟨404, false, "Todo not found"⟩, st) ∧
      ctrl.toggleTodoComplete st now id = (⟨404, false, "Todo not found"⟩, st)) := by
  have hcb : ∀ {β : Type} (f : String → Except DbErr β), isValidHexId id = false →
      (createFromHexString id >>= f) = .error .bsonError := by
    intro β f h
    simp [createFromHexString, h, exceptErrBind]
  have hco : ∀ {β : Type} (f : String → Except DbErr β), isValidHexId id = true →
      (createFromHexString id >>= f) = f id := by
    intro β f h
    simp [createFromHexString, h, exceptOkBind]
  constructor
  · intro h
    have hget : todoDb.getTodoById st id = .error .bsonError := by
      unfold todoDb.getTodoById
      exact hcb _ h
    have hupd : todoDb.updateTodo st now id
        { title := none, completed := some b } = .error .bsonError := by
      unfold todoDb.updateTodo
      exact hcb _ h
    have hdel : todoDb.deleteTodo st id = .error .bsonError := by
      unfold todoDb.deleteTodo
      exact hcb _ h
    have htog : todoDb.toggleTodoComplete st now id = .error .bsonError := by
      unfold todoDb.toggleTodoComplete
      rw [hget]
      exact exceptErrBind _ _
    refine ⟨?_, ?_, ?_, ?_⟩
    · simp [ctrl.getTodoById, hget]
    · simp [ctrl.updateTodo, hupd]
    · simp [ctrl.deleteTodo, hdel]
    · simp [ctrl.toggleTodoComplete, htog]
  · intro h hun
    have hfind : st.find? (fun t => t._id == id) = none := by
      rw [List.find?_eq_none]
      intro t ht
      simpa using hun t ht
    have hany : (st.any fun t => t._id == id) = false := by
      rw [List.any_eq_false]
      intro t ht
      simpa using hun t ht
    have hget : todoDb.getTodoById st id = .ok none := by
      unfold todoDb.getTodoById
      rw [hco _ h, hfind]
      rfl
    have hupd : todoDb.updateTodo st now id
        { title := none, completed := some b } = .ok (none, st) := by
      unfold todoDb.updateTodo
      rw [hco _ h, hfind]
      rfl
    have hdel : todoDb.deleteTodo st id = .ok (false, st) := by
      have hdf : deleteFirst (fun t => t._id == id) st = st :=
        deleteFirst_of_no_match _ st (fun t ht => by simpa using hun t ht)
      unfold todoDb.deleteTodo
      rw [hco _ h]
      simp [hany, hdf, exceptPure]
    have htog : todoDb.toggleTodoComplete st now id = .ok (none, st) := by
      unfold todoDb.toggleTodoComplete
      rw [hget]
      rfl
    refine ⟨?_, ?_, ?_, ?_⟩
    · simp [ctrl.getTodoById, hget]
    · simp [ctrl.updateTodo, hupd]
    · simp [ctrl.deleteTodo, hdel]
    · simp [ctrl.toggleTodoComplete, htog]

/-- C7 witness: the malformed id "not-an-objectid" is answered 400 by all
four operations, and a well-formed absent id is answered 404. -/
theorem claim_C7_invalid_id_handling_witness :
    (ctrl.getTodoById [] "not-an-objectid" = ⟨400, false, "Invalid todo ID format"⟩ ∧
      ctrl.updateTodo [] 0 "not-an-objectid" none (some true)
        = (⟨400, false, "Invalid todo ID format"⟩, []) ∧
      ctrl.deleteTodo [] "not-an-objectid" = (⟨400, false, "Invalid todo ID format"⟩, []) ∧
      ctrl.toggleTodoComplete [] 0 "not-an-objectid"
        = (⟨400, false, "Invalid todo ID format"⟩, [])) ∧
    (ctrl.getTodoById [] "aaaaaaaaaaaaaaaaaaaaaaaa" = ⟨404, false, "Todo not found"⟩ ∧
      ctrl.updateTodo [] 0 "aaaaaaaaaaaaaaaaaaaaaaaa" none (some true)
        = (⟨404, false, "Todo not found"⟩, []) ∧
      ctrl.deleteTodo [] "aaaaaaaaaaaaaaaaaaaaaaaa" = (⟨404, false, "Todo not found"⟩, []) ∧
      ctrl.toggleTodoComplete [] 0 "aaaaaaaaaaaaaaaaaaaaaaaa"
        = (⟨404, false, "Todo not found"⟩, [])) :=
  ⟨(claim_C7_invalid_id_handling [] 0 "not-an-objectid" true).1 (by decide),
   (claim_C7_invalid_id_handling [] 0 "aaaaaaaaaaaaaaaaaaaaaaaa" true).2 (by decide)
     (by decide)⟩

lemma deleteFirst_middle (p : Todo → Bool) (r : Todo) (post : List Todo)
    (hr : p r = true) :
    ∀ pre : List Todo, (∀ t ∈ pre, p t = false) →
      deleteFirst p (pre ++ r :: post) = pre ++ post
  | [], _ => by simp [deleteFirst, hr]
  | t :: ts, h => by
    simp only [List.cons_append, deleteFirst, h t (by simp)]
    simp [deleteFirst_middle p r post hr ts (fun x hx => h x (by simp [hx]))]

lemma getAllTodos_todos_length (st : List Todo) :
    (todoDb.getAllTodos st).todos.length = st.length := by
  unfold todoDb.getAllTodos
  by_cases h : ((sortTodos st).any fun t => t.order = none) = true <;>
    simp [h, todoDb.repairPass_length, (sortTodos_perm st).length_eq]

/-- C8: deleting an existing record by its well-formed id returns `true` and
removes exactly that record: the store becomes the other records, untouched
(each keeps its order value), its length drops by one, `list()` returns one
record fewer, the deleted id is absent, and a subsequent `get` of that id is
not-found. -/
theorem claim_C8_delete_removes_one (pre post : List Todo) (r : Todo)
    (hv : isValidHexId r._id = true)
    (hnd : ((pre ++ r :: post).map (fun t => t._id)).Nodup) :
    todoDb.deleteTodo (pre ++ r :: post) r._id = .ok (true, pre ++ post) ∧
    (pre ++ post).length + 1 = (pre ++ r :: post).length ∧
    (∀ t ∈ pre ++ post, t._id ≠ r._id) ∧
    todoDb.getTodoById (pre ++ post) r._id = .ok none ∧
    (∀ t ∈ pre ++ post, t ∈ pre ++ r :: post) ∧
    (todoDb.getAllTodos (pre ++ post)).todos.length + 1 = (pre ++ r :: post).length := by
  rw [List.map_append, List.map_cons] at hnd
  rw [List.nodup_append] at hnd
  obtain ⟨hnd1, hnd2, hdisj⟩ := hnd
  rw [List.nodup_cons] at hnd2
  have hpre : ∀ t ∈ pre, t._id ≠ r._id := by
    intro t ht heq
    exact (hdisj (List.mem_map_of_mem _ ht)) (by simp [heq])
  have hpost : ∀ t ∈ post, t._id ≠ r._id := by
    intro t ht heq
    exact hnd2.1 (heq ▸ List.mem_map_of_mem _ ht)
  have hrempp : ∀ t ∈ pre ++ post, t._id ≠ r._id := by
    intro t ht
    rcases List.mem_append.mp ht with h | h
    · exact hpre t h
    · exact hpost t h
  have hdelF : deleteFirst (fun t => t._id == r._id) (pre ++ r :: post) = pre ++ post :=
    deleteFirst_middle _ r post (by simp) pre (fun t ht => by simpa using hpre t ht)
  have hany : ((pre ++ r :: post).any fun t => t._id == r._id) = true := by
    rw [List.any_eq_true]
    exact ⟨r, by simp, by simp⟩
  refine ⟨?_, by simp; omega, hrempp, ?_, ?_, ?_⟩
  · unfold todoDb.deleteTodo
    simp only [createFromHexString, hv, if_pos, exceptOkBind, hany, hdelF]
    rfl
  · unfold todoDb.getTodoById
    simp only [createFromHexString, hv, if_pos, exceptOkBind]
    have hfind : (pre ++ post).find? (fun t => t._id == r._id) = none := by
      rw [List.find?_eq_none]
      intro t ht
      simpa using hrempp t ht
    rw [hfind]
    rfl
  · intro t ht
    rcases List.mem_append.mp ht with h | h
    · exact List.mem_append.mpr (Or.inl h)
    · exact List.mem_append.mpr (Or.inr (by simp [h]))
  · rw [getAllTodos_todos_length]
    simp
    omega

/-- C8 witness: deleting the middle record of a three-record store. -/
theorem claim_C8_delete_removes_one_witness :
    todoDb.deleteTodo
        [⟨"aaaaaaaaaaaaaaaaaaaaaaaa", "x", false, some 0, 1, 1⟩,
         ⟨"bbbbbbbbbbbbbbbbbbbbbbbb", "y", false, some 1, 2, 2⟩,
         ⟨"cccccccccccccccccccccccc", "z", false, some 2, 3, 3⟩]
        "bbbbbbbbbbbbbbbbbbbbbbbb"
      = .ok (true,
        [⟨"aaaaaaaaaaaaaaaaaaaaaaaa", "x", false, some 0, 1, 1⟩,
         ⟨"cccccccccccccccccccccccc", "z", false, some 2, 3, 3⟩]) ∧
    todoDb.getTodoById
        [⟨"aaaaaaaaaaaaaaaaaaaaaaaa", "x", false, some 0, 1, 1⟩,
         ⟨"cccccccccccccccccccccccc", "z", false, some 2, 3, 3⟩]
        "bbbbbbbbbbbbbbbbbbbbbbbb" = .ok none := by
  have h := claim_C8_delete_removes_one
    [⟨"aaaaaaaaaaaaaaaaaaaaaaaa", "x", false, some 0, 1, 1⟩]
    [⟨"cccccccccccccccccccccccc", "z", false, some 2, 3, 3⟩]
    ⟨"bbbbbbbbbbbbbbbbbbbbbbbb", "y", false, some 1, 2, 2⟩
    (by decide) (by decide)
  exact ⟨h.1, h.2.2.2.1⟩

lemma mem_repairPass_of_some : ∀ (n : Nat) (s : List Todo) (t : Todo),
    t ∈ s → t.order ≠ none → t ∈ todoDb.repairPass n s
  | n, u :: us, t, ht, ho => by
    unfold todoDb.repairPass
    rcases List.mem_cons.mp ht with heq | hmem
    · subst heq
      rw [if_neg ho]
      simp
    · simp [mem_repairPass_of_some (n + 1) us t hmem ho]

lemma mem_repairPass_of_none : ∀ (n : Nat) (s : List Todo) (t : Todo),
    t ∈ s → t.order = none → ∃ k, { t with order := some k } ∈ todoDb.repairPass n s
  | n, u :: us, t, ht, ho => by
    unfold todoDb.repairPass
    rcases List.mem_cons.mp ht with heq | hmem
    · subst heq
      exact ⟨n, by rw [if_pos ho]; simp⟩
    · obtain ⟨k, hk⟩ := mem_repairPass_of_none (n + 1) us t hmem ho
      exact ⟨k, by simp [hk]⟩

lemma getAllTodos_needs_update (st : List Todo) (h : ∃ t ∈ st, t.order = none) :
    todoDb.getAllTodos st = ⟨todoDb.repairPass 0 (sortTodos st),
      todoDb.applyOrderWrites st
        ((todoDb.repairPass 0 (sortTodos st)).map (fun t => (t._id, t.order))),
      (todoDb.repairPass 0 (sortTodos st)).map (fun t => (t._id, t.order))⟩ := by
  have hany : ((sortTodos st).any fun t => t.order = none) = true := by
    rw [List.any_eq_true]
    obtain ⟨t, ht, hn⟩ := h
    exact ⟨t, (sortTodos_perm st).mem_iff.mpr ht, by simp [hn]⟩
  have hfilter : ((todoDb.repairPass 0 (sortTodos st)).filter fun t => t.order ≠ none)
      = todoDb.repairPass 0 (sortTodos st) := by
    rw [List.filter_eq_self]
    intro t ht
    simpa using todoDb.mem_repairPass_order_ne_none 0 _ t ht
  unfold todoDb.getAllTodos
  simp only [hany, if_true, hfilter]

/-- C1 counterexample: in a store holding one record with a valid order
(`"withOrder"`, order 0) and one with no order, the repair `bulkWrite`
issues a write for the already-valid record too — refuting "every record
that already had a valid order receives no write". -/
theorem claim_C1_counterexample :
    (⟨"aaaaaaaaaaaaaaaaaaaaaaaa", "withOrder", false, some 0, 10, 10⟩ : Todo).order
        ≠ none ∧
    (todoDb.getAllTodos
        [⟨"aaaaaaaaaaaaaaaaaaaaaaaa", "withOrder", false, some 0, 10, 10⟩,
         ⟨"bbbbbbbbbbbbbbbbbbbbbbbb", "noOrder", false, none, 5, 5⟩]).writes
      = [("bbbbbbbbbbbbbbbbbbbbbbbb", some 0), ("aaaaaaaaaaaaaaaaaaaaaaaa", some 0)] ∧
    ("aaaaaaaaaaaaaaaaaaaaaaaa", some 0) ∈
      (todoDb.getAllTodos
        [⟨"aaaaaaaaaaaaaaaaaaaaaaaa", "withOrder", false, some 0, 10, 10⟩,
         ⟨"bbbbbbbbbbbbbbbbbbbbbbbb", "noOrder", false, none, 5, 5⟩]).writes := by
  decide

/-- C1 as amended: when some record lacks an order, the repair `bulkWrite`
issues one write per record of the whole sorted list — not only for the
repaired ones (the `filter` runs after the in-place mutation, so it excludes
nothing) — but each record that already had a valid order is written its
existing order value, so its order value is unchanged, while each record
that lacked one is written some newly assigned index. -/
theorem claim_C1_repair_writes_amended (st : List Todo)
    (h : ∃ t ∈ st, t.order = none) :
    (todoDb.getAllTodos st).writes.length = st.length ∧
    (∀ t ∈ sortTodos st, t.order ≠ none →
      (t._id, t.order) ∈ (todoDb.getAllTodos st).writes) ∧
    (∀ t ∈ sortTodos st, t.order = none →
      ∃ k, (t._id, some k) ∈ (todoDb.getAllTodos st).writes) := by
  rw [getAllTodos_needs_update st h]
  refine ⟨?_, ?_, ?_⟩
  · simp [todoDb.repairPass_length, (sortTodos_perm st).length_eq]
  · intro t ht ho
    exact List.mem_map_of_mem _ (mem_repairPass_of_some 0 _ t ht ho)
  · intro t ht ho
    obtain ⟨k, hk⟩ := mem_repairPass_of_none 0 _ t ht ho
    exact ⟨k, by simpa using List.mem_map_of_mem (fun t => (t._id, t.order)) hk⟩

/-- C1 amended witness: the two-record store of the counterexample gets
exactly two writes. -/
theorem claim_C1_repair_writes_amended_witness :
    (todoDb.getAllTodos
        [⟨"aaaaaaaaaaaaaaaaaaaaaaaa", "withOrder", false, some 0, 10, 10⟩,
         ⟨"bbbbbbbbbbbbbbbbbbbbbbbb", "noOrder", false, none, 5, 5⟩]).writes.length
      = 2 :=
  (claim_C1_repair_writes_amended
    [⟨"aaaaaaaaaaaaaaaaaaaaaaaa", "withOrder", false, some 0, 10, 10⟩,
     ⟨"bbbbbbbbbbbbbbbbbbbbbbbb", "noOrder", false, none, 5, 5⟩]
    ⟨⟨"bbbbbbbbbbbbbbbbbbbbbbbb", "noOrder", false, none, 5, 5⟩, by decide, rfl⟩).1

lemma find?_updateFirst (p : Todo → Bool) (f : Todo → Todo)
    (hp : ∀ t, p t = true → p (f t) = true) :
    ∀ (st : List Todo) (t : Todo), st.find? p = some t →
      (updateFirst p f st).find? p = some (f t)
  | u :: us, t, h => by
    by_cases hu : p u = true
    · have htu : t = u := by
        rw [List.find?_cons_of_pos _ hu] at h
        exact (Option.some_inj.mp h).symm
      subst htu
      unfold updateFirst
      rw [if_pos hu]
      rw [List.find?_cons_of_pos _ (hp t hu)]
    · unfold updateFirst
      rw [if_neg hu]
      rw [List.find?_cons_of_neg _ hu] at h
      rw [List.find?_cons_of_neg _ hu]
      exact find?_updateFirst p f hp us t h

/-- C2 counterexample: updating an existing record with the whitespace-only
title `"   "` does not raise a validation error — the controller trims it to
the empty string, answers 200, and the stored record is mutated to an empty
title — contradicting the claim that `update(id, {title: "   "})` raises
`ValidationError` and leaves the record unmodified. -/
theorem claim_C2_counterexample :
    ctrl.updateTodo [⟨"aaaaaaaaaaaaaaaaaaaaaaaa", "hello", false, some 0, 0, 0⟩] 5
        "aaaaaaaaaaaaaaaaaaaaaaaa" (some "   ") none
      = (⟨200, true, "Todo updated successfully"⟩,
         [⟨"aaaaaaaaaaaaaaaaaaaaaaaa", "", false, some 0, 0, 5⟩]) := by
  decide

/-- C2 as amended: `create` with a whitespace-only title is rejected with the
400 validation error and no record is created, as claimed; but `update` with
a whitespace-only title is NOT rejected — the controller performs no title
validation, trims the title to `""`, answers 200, and the matched record is
mutated to an empty title with a refreshed `updatedAt`. -/
theorem claim_C2_whitespace_title_amended (st : List Todo) (now : Nat) (id : String)
    (t : Todo) (newId : String) (completed : Option Bool) (title : String)
    (htrim : jsTrim title = "")
    (hfind : st.find? (fun x => x._id == id) = some t)
    (hv : isValidHexId id = true) :
    ctrl.createTodo st newId now (some title) completed
      = (⟨400, false, "Title is required"⟩, st) ∧
    (ctrl.updateTodo st now id (some title) none).1
      = ⟨200, true, "Todo updated successfully"⟩ ∧
    ((ctrl.updateTodo st now id (some title) none).2).find? (fun x => x._id == id)
      = some { t with title := "", updatedAt := now } := by
  have hdb : todoDb.updateTodo st now id
      { title := some (jsTrim title), completed := none }
      = .ok (some (todoDb.applyUpdates
            { title := some (jsTrim title), completed := none } now t),
          updateFirst (fun x => x._id == id)
            (todoDb.applyUpdates
              { title := some (jsTrim title), completed := none } now) st) := by
    unfold todoDb.updateTodo
    simp only [createFromHexString, hv, if_true, exceptOkBind, hfind]
    rfl
  refine ⟨?_, ?_, ?_⟩
  · simp [ctrl.createTodo, htrim]
  · simp [ctrl.updateTodo, hdb]
  · have hctrl : (ctrl.updateTodo st now id (some title) none).2
        = updateFirst (fun x => x._id == id)
            (todoDb.applyUpdates
              { title := some (jsTrim title), completed := none } now) st := by
      simp [ctrl.updateTodo, hdb]
    rw [hctrl]
    have happ := find?_updateFirst (fun x => x._id == id)
      (todoDb.applyUpdates { title := some (jsTrim title), completed := none } now)
      (fun x hx => by simpa [todoDb.applyUpdates] using hx) st t hfind
    rw [happ]
    simp [todoDb.applyUpdates, htrim]

/-- C2 amended witness: concrete one-record store, title `"   "`. -/
theorem claim_C2_whitespace_title_amended_witness :
    ctrl.createTodo [⟨"aaaaaaaaaaaaaaaaaaaaaaaa", "hello", false, some 0, 0, 0⟩]
        "bbbbbbbbbbbbbbbbbbbbbbbb" 5 (some "   ") none
      = (⟨400, false, "Title is required"⟩,
         [⟨"aaaaaaaaaaaaaaaaaaaaaaaa", "hello", false, some 0, 0, 0⟩]) ∧
    (ctrl.updateTodo [⟨"aaaaaaaaaaaaaaaaaaaaaaaa", "hello", false, some 0, 0, 0⟩] 5
        "aaaaaaaaaaaaaaaaaaaaaaaa" (some "   ") none).1
      = ⟨200, true, "Todo updated successfully"⟩ :=
  have h := claim_C2_whitespace_title_amended
    [⟨"aaaaaaaaaaaaaaaaaaaaaaaa", "hello", false, some 0, 0, 0⟩] 5
    "aaaaaaaaaaaaaaaaaaaaaaaa" ⟨"aaaaaaaaaaaaaaaaaaaaaaaa", "hello", false, some 0, 0, 0⟩
    "bbbbbbbbbbbbbbbbbbbbbbbb" none "   " (by decide) (by decide) (by decide)
  ⟨h.1, h.2.1⟩

/-- C4: from records `x, y, z` at orders `[0, 1, 2]`, `reorder([z, x, y])`
rewrites their orders to `0, 1, 2` respectively (refreshing `updatedAt`),
and a following `list()` returns the sequence `[z, x, y]` carrying orders
`[0, 1, 2]`, with no repair write. -/
theorem claim_C4_reorder_round_trip (rx ry rz : Todo) (now : Nat)
    (hx : rx.order = some 0) (hy : ry.order = some 1) (hz : rz.order = some 2)
    (hvx : isValidHexId rx._id = true) (hvy : isValidHexId ry._id = true)
    (hvz : isValidHexId rz._id = true)
    (hxy : rx._id ≠ ry._id) (hxz : rx._id ≠ rz._id) (hyz : ry._id ≠ rz._id) :
    todoDb.reorderTodos [rx, ry, rz] now [rz._id, rx._id, ry._id]
      = .ok ([{ rx with order := some 1, updatedAt := now },
              { ry with order := some 2, updatedAt := now },
              { rz with order := some 0, updatedAt := now }], true) ∧
    (todoDb.getAllTodos
        [{ rx with order := some 1, updatedAt := now },
         { ry with order := some 2, updatedAt := now },
         { rz with order := some 0, updatedAt := now }]).todos
      = [{ rz with order := some 0, updatedAt := now },
         { rx with order := some 1, updatedAt := now },
         { ry with order := some 2, updatedAt := now }] ∧
    (todoDb.getAllTodos
        [{ rx with order := some 1, updatedAt := now },
         { ry with order := some 2, updatedAt := now },
         { rz with order := some 0, updatedAt := now }]).writes = [] := by
  have bxz : (rx._id == rz._id) = false := beq_eq_false_iff_ne.mpr hxz
  have byz : (ry._id == rz._id) = false := beq_eq_false_iff_ne.mpr hyz
  have bxy : (rx._id == ry._id) = false := beq_eq_false_iff_ne.mpr hxy
  have hops : todoDb.buildOps 0 [rz._id, rx._id, ry._id]
      = .ok [(rz._id, 0), (rx._id, 1), (ry._id, 2)] := by
    simp [todoDb.buildOps, createFromHexString, hvx, hvy, hvz, exceptOkBind, exceptPure]
  have hall : ∀ t ∈ [{ rx with order := some 1, updatedAt := now },
      { ry with order := some 2, updatedAt := now },
      { rz with order := some 0, updatedAt := now }], t.order ≠ none := by
    intro t ht
    simp only [List.mem_cons, List.not_mem_nil, or_false] at ht
    rcases ht with h | h | h <;> subst h <;> simp
  have hget := getAllTodos_of_all_some _ hall
  have hsorted : List.Sorted keyLe
      [{ rz with order := some 0, updatedAt := now },
       { rx with order := some 1, updatedAt := now },
       { ry with order := some 2, updatedAt := now }] := by
    simp [List.sorted_cons, keyLe, keyLeB]
  have hdist : ([{ rz with order := some 0, updatedAt := now },
       { rx with order := some 1, updatedAt := now },
       { ry with order := some 2, updatedAt := now }]).Pairwise
        (fun a b => a.order ≠ b.order) := by
    simp [List.pairwise_cons]
  have hperm : [{ rz with order := some 0, updatedAt := now },
       { rx with order := some 1, updatedAt := now },
       { ry with order := some 2, updatedAt := now }].Perm
      (sortTodos [{ rx with order := some 1, updatedAt := now },
       { ry with order := some 2, updatedAt := now },
       { rz with order := some 0, updatedAt := now }]) := by
    refine List.Perm.trans ?_ (sortTodos_perm _).symm
    show ([{ rz with order := some 0, updatedAt := now }] ++
        [{ rx with order := some 1, updatedAt := now },
         { ry with order := some 2, updatedAt := now }]).Perm
      ([{ rx with order := some 1, updatedAt := now },
        { ry with order := some 2, updatedAt := now }] ++
       [{ rz with order := some 0, updatedAt := now }])
    exact List.perm_append_comm
  have hsort : sortTodos [{ rx with order := some 1, updatedAt := now },
      { ry with order := some 2, updatedAt := now },
      { rz with order := some 0, updatedAt := now }]
      = [{ rz with order := some 0, updatedAt := now },
         { rx with order := some 1, updatedAt := now },
         { ry with order := some 2, updatedAt := now }] :=
    (sorted_perm_eq hperm hsorted (sortTodos_sorted _) (by simp) hdist).symm
  refine ⟨?_, ?_, ?_⟩
  · unfold todoDb.reorderTodos
    rw [hops, exceptOkBind]
    simp [updateFirst, bxz, byz, bxy, exceptPure]
  · rw [hget, hsort]
  · rw [hget]

/-- C4 witness: three concrete records at orders 0, 1, 2. -/
theorem claim_C4_reorder_round_trip_witness :
    todoDb.reorderTodos
        [⟨"aaaaaaaaaaaaaaaaaaaaaaaa", "x", false, some 0, 1, 1⟩,
         ⟨"bbbbbbbbbbbbbbbbbbbbbbbb", "y", false, some 1, 2, 2⟩,
         ⟨"cccccccccccccccccccccccc", "z", false, some 2, 3, 3⟩] 9
        ["cccccccccccccccccccccccc", "aaaaaaaaaaaaaaaaaaaaaaaa", "bbbbbbbbbbbbbbbbbbbbbbbb"]
      = .ok ([⟨"aaaaaaaaaaaaaaaaaaaaaaaa", "x", false, some 1, 1, 9⟩,
              ⟨"bbbbbbbbbbbbbbbbbbbbbbbb", "y", false, some 2, 2, 9⟩,
              ⟨"cccccccccccccccccccccccc", "z", false, some 0, 3, 9⟩], true) ∧
    (todoDb.getAllTodos
        [⟨"aaaaaaaaaaaaaaaaaaaaaaaa", "x", false, some 1, 1, 9⟩,
         ⟨"bbbbbbbbbbbbbbbbbbbbbbbb", "y", false, some 2, 2, 9⟩,
         ⟨"cccccccccccccccccccccccc", "z", false, some 0, 3, 9⟩]).todos
      = [⟨"cccccccccccccccccccccccc", "z", false, some 0, 3, 9⟩,
         ⟨"aaaaaaaaaaaaaaaaaaaaaaaa", "x", false, some 1, 1, 9⟩,
         ⟨"bbbbbbbbbbbbbbbbbbbbbbbb", "y", false, some 2, 2, 9⟩] :=
  have h := claim_C4_reorder_round_trip
    ⟨"aaaaaaaaaaaaaaaaaaaaaaaa", "x", false, some 0, 1, 1⟩
    ⟨"bbbbbbbbbbbbbbbbbbbbbbbb", "y", false, some 1, 2, 2⟩
    ⟨"cccccccccccccccccccccccc", "z", false, some 2, 3, 3⟩ 9
    rfl rfl rfl (by decide) (by decide) (by decide)
    (by decide) (by decide) (by decide)
  ⟨h.1, h.2.1⟩

lemma lookup_eq_none_of_not_mem {β : Type} (a : String) :
    ∀ l : List (String × β), a ∉ l.map (fun p => p.1) → List.lookup a l = none
  | [], _ => rfl
  | (k, v) :: es, h => by
    have hka : (a == k) = false :=
      beq_eq_false_iff_ne.mpr (fun he => h (by simp [he]))
    simp only [List.lookup, hka]
    exact lookup_eq_none_of_not_mem a es (fun hm => h (by simp [hm]))

lemma updateFirst_map_lookup (i : String) (v : Option Nat)
    (rest : List (String × Option Nat)) (hi : i ∉ rest.map (fun p => p.1)) :
    ∀ st : List Todo, (st.map (fun t => t._id)).Nodup →
      (updateFirst (fun t => t._id == i) (fun t => { t with order := v }) st).map
          (setOrderFrom rest)
        = st.map (setOrderFrom ((i, v) :: rest))
  | [], _ => rfl
  | u :: us, hnd => by
    rw [List.map_cons, List.nodup_cons] at hnd
    by_cases hu : (u._id == i) = true
    · have hui : u._id = i := eq_of_beq hu
      have hlrest : List.lookup u._id rest = none := by
        rw [hui]
        exact lookup_eq_none_of_not_mem i rest hi
      have hlcons : List.lookup u._id ((i, v) :: rest) = some v := by
        simp only [List.lookup, hu]
      unfold updateFirst
      rw [if_pos hu]
      simp only [List.map_cons, setOrderFrom]
      rw [hlrest, hlcons]
      congr 1
      refine List.map_congr_left ?_
      intro w hw
      have hwne : w._id ≠ u._id := fun he => hnd.1 (he ▸ List.mem_map_of_mem _ hw)
      have hskip : (w._id == i) = false :=
        beq_eq_false_iff_ne.mpr (fun he => hwne (he.trans hui.symm))
      simp only [setOrderFrom, List.lookup, hskip]
    · have hune : (u._id == i) = false := by simpa using hu
      unfold updateFirst
      rw [if_neg hu]
      simp only [List.map_cons, setOrderFrom]
      rw [show List.lookup u._id ((i, v) :: rest) = List.lookup u._id rest from by
        simp only [List.lookup, hune]]
      congr 1
      have hihere := updateFirst_map_lookup i v rest hi us hnd.2
      simpa [setOrderFrom] using hihere

lemma applyOrderWrites_eq_map : ∀ (ops : List (String × Option Nat)) (st : List Todo),
    (st.map (fun t => t._id)).Nodup → (ops.map (fun p => p.1)).Nodup →
    todoDb.applyOrderWrites st ops = st.map (setOrderFrom ops)
  | [], st, _, _ => (List.map_id' st).symm
  | (i, v) :: ops, st, hnd, hknd => by
    rw [List.map_cons, List.nodup_cons] at hknd
    have hstep : todoDb.applyOrderWrites st ((i, v) :: ops)
        = todoDb.applyOrderWrites
            (updateFirst (fun t => t._id == i) (fun t => { t with order := v }) st)
            ops := rfl
    have hnd₁ : ((updateFirst (fun t => t._id == i)
        (fun t => { t with order := v }) st).map (fun t => t._id)).Nodup := by
      rw [updateFirst_id_map (fun t => t._id == i)
        (fun t => { t with order := v }) (fun t => rfl)]
      exact hnd
    rw [hstep, applyOrderWrites_eq_map ops _ hnd₁ hknd.2]
    exact updateFirst_map_lookup i v ops hknd.1 st hnd

lemma repairPass_all_none_map : ∀ (n : Nat) (s : List Todo),
    (∀ t ∈ s, t.order = none) → (s.map (fun t => t._id)).Nodup →
    s.map (setOrderFrom ((todoDb.repairPass n s).map (fun u => (u._id, u.order))))
      = todoDb.repairPass n s
  | _, [], _, _ => rfl
  | n, u :: us, hall, hnd => by
    have hu : u.order = none := hall u (by simp)
    rw [List.map_cons, List.nodup_cons] at hnd
    unfold todoDb.repairPass
    rw [if_pos hu]
    simp only [List.map_cons, setOrderFrom]
    have hhead : List.lookup u._id
        ((u._id, (some n : Option Nat))
          :: (todoDb.repairPass (n + 1) us).map (fun u => (u._id, u.order)))
        = some (some n) := by
      simp [List.lookup]
    rw [hhead]
    congr 1
    have htail : ∀ w ∈ us, List.lookup w._id
        ((u._id, (some n : Option Nat))
          :: (todoDb.repairPass (n + 1) us).map (fun u => (u._id, u.order)))
        = List.lookup w._id
            ((todoDb.repairPass (n + 1) us).map (fun u => (u._id, u.order))) := by
      intro w hw
      have hwne : (w._id == u._id) = false :=
        beq_eq_false_iff_ne.mpr (fun he => hnd.1 (he ▸ List.mem_map_of_mem _ hw))
      simp only [List.lookup, hwne]
    have htail2 : us.map (setOrderFrom ((u._id, (some n : Option Nat))
          :: (todoDb.repairPass (n + 1) us).map (fun u => (u._id, u.order))))
        = us.map (setOrderFrom
            ((todoDb.repairPass (n + 1) us).map (fun u => (u._id, u.order)))) :=
      List.map_congr_left (fun w hw => by
        simp only [setOrderFrom]
        rw [htail w hw])
    rw [htail2]
    exact repairPass_all_none_map (n + 1) us
      (fun t ht => hall t (by simp [ht])) hnd.2

/-- C5: on a store whose records all lack an `order` field (and have distinct
ids), `list()` run twice returns the same sequence both times; the second
call issues no writes, because after the first call's repair no record's
`order` is undefined, and it leaves the store untouched. -/
theorem claim_C5_repair_idempotence (st : List Todo)
    (hnone : ∀ t ∈ st, t.order = none)
    (hnd : (st.map (fun t => t._id)).Nodup) :
    (todoDb.getAllTodos (todoDb.getAllTodos st).store).todos
        = (todoDb.getAllTodos st).todos ∧
    (todoDb.getAllTodos (todoDb.getAllTodos st).store).writes = [] ∧
    (todoDb.getAllTodos (todoDb.getAllTodos st).store).store
        = (todoDb.getAllTodos st).store := by
  by_cases hex : ∃ t ∈ st, t.order = none
  · have hs_none : ∀ t ∈ sortTodos st, t.order = none :=
      fun t ht => hnone t ((sortTodos_perm st).mem_iff.mp ht)
    have hs_nd : ((sortTodos st).map (fun t => t._id)).Nodup :=
      (((sortTodos_perm st).map (fun t => t._id)).nodup_iff).mpr hnd
    have hWkeys : (((todoDb.repairPass 0 (sortTodos st)).map
        (fun t => (t._id, t.order))).map (fun p => p.1))
        = (sortTodos st).map (fun t => t._id) := by
      rw [List.map_map]
      exact todoDb.repairPass_id_map 0 (sortTodos st)
    have hWnd : (((todoDb.repairPass 0 (sortTodos st)).map
        (fun t => (t._id, t.order))).map (fun p => p.1)).Nodup := by
      rw [hWkeys]
      exact hs_nd
    have hga := getAllTodos_needs_update st hex
    have hst1 : todoDb.applyOrderWrites st
        ((todoDb.repairPass 0 (sortTodos st)).map (fun t => (t._id, t.order)))
        = st.map (setOrderFrom ((todoDb.repairPass 0 (sortTodos st)).map
            (fun t => (t._id, t.order)))) :=
      applyOrderWrites_eq_map _ st hnd hWnd
    have hsmap : (sortTodos st).map (setOrderFrom
          ((todoDb.repairPass 0 (sortTodos st)).map (fun t => (t._id, t.order))))
        = todoDb.repairPass 0 (sortTodos st) :=
      repairPass_all_none_map 0 (sortTodos st) hs_none hs_nd
    have hperm1 : (todoDb.applyOrderWrites st
        ((todoDb.repairPass 0 (sortTodos st)).map (fun t => (t._id, t.order)))).Perm
          (todoDb.repairPass 0 (sortTodos st)) := by
      rw [hst1]
      refine ((sortTodos_perm st).map _).symm.trans ?_
      rw [hsmap]
    have hout_some : ∀ t ∈ todoDb.repairPass 0 (sortTodos st), t.order ≠ none :=
      todoDb.mem_repairPass_order_ne_none 0 (sortTodos st)
    have hout_sorted := todoDb.repairPass_all_none_sorted 0 (sortTodos st) hs_none
    have hst1_some : ∀ t ∈ todoDb.applyOrderWrites st
        ((todoDb.repairPass 0 (sortTodos st)).map (fun t => (t._id, t.order))),
        t.order ≠ none :=
      fun t ht => hout_some t (hperm1.mem_iff.mp ht)
    have hga2 := getAllTodos_of_all_some _ hst1_some
    have hsort2 : sortTodos (todoDb.applyOrderWrites st
        ((todoDb.repairPass 0 (sortTodos st)).map (fun t => (t._id, t.order))))
        = todoDb.repairPass 0 (sortTodos st) :=
      (sorted_perm_eq (hperm1.symm.trans (sortTodos_perm _).symm)
        hout_sorted.1 (sortTodos_sorted _) hout_some hout_sorted.2).symm
    have hstore1 : (todoDb.getAllTodos st).store
        = todoDb.applyOrderWrites st
            ((todoDb.repairPass 0 (sortTodos st)).map (fun t => (t._id, t.order))) := by
      rw [hga]
    have htodos1 : (todoDb.getAllTodos st).todos
        = todoDb.repairPass 0 (sortTodos st) := by
      rw [hga]
    rw [hstore1, hga2]
    exact ⟨by rw [hsort2, htodos1], rfl, rfl⟩
  · have hnil : st = [] := by
      cases st with
      | nil => rfl
      | cons u us => exact absurd ⟨u, by simp, hnone u (by simp)⟩ hex
    subst hnil
    decide

/-- C5 witness: three records with no `order` field and distinct ids. -/
theorem claim_C5_repair_idempotence_witness :
    (todoDb.getAllTodos (todoDb.getAllTodos
        [⟨"aaaaaaaaaaaaaaaaaaaaaaaa", "x", false, none, 1, 1⟩,
         ⟨"bbbbbbbbbbbbbbbbbbbbbbbb", "y", false, none, 2, 2⟩,
         ⟨"cccccccccccccccccccccccc", "z", false, none, 3, 3⟩]).store).todos
      = (todoDb.getAllTodos
        [⟨"aaaaaaaaaaaaaaaaaaaaaaaa", "x", false, none, 1, 1⟩,
         ⟨"bbbbbbbbbbbbbbbbbbbbbbbb", "y", false, none, 2, 2⟩,
         ⟨"cccccccccccccccccccccccc", "z", false, none, 3, 3⟩]).todos ∧
    (todoDb.getAllTodos (todoDb.getAllTodos
        [⟨"aaaaaaaaaaaaaaaaaaaaaaaa", "x", false, none, 1, 1⟩,
         ⟨"bbbbbbbbbbbbbbbbbbbbbbbb", "y", false, none, 2, 2⟩,
         ⟨"cccccccccccccccccccccccc", "z", false, none, 3, 3⟩]).store).writes = [] :=
  have h := claim_C5_repair_idempotence
    [⟨"aaaaaaaaaaaaaaaaaaaaaaaa", "x", false, none, 1, 1⟩,
     ⟨"bbbbbbbbbbbbbbbbbbbbbbbb", "y", false, none, 2, 2⟩,
     ⟨"cccccccccccccccccccccccc", "z", false, none, 3, 3⟩]
    (by decide) (by decide)
  ⟨h.1, h.2.1⟩
